import Mathlib

/-!
Verification of the mappath library (mappath.go): a read-only navigator over
nested string-keyed maps and slices, addressed by slash-delimited path
strings, with coercion of the resolved value to a caller-requested type.

Embedding conventions:
* Go `interface\x7b\x7d` document values become the inductive `Val`.
* Go `float64` is modeled by exact rationals (`Rat`); parsing and fixed-point
  formatting act on the exact decimal value, and rounding of decimal literals
  to binary float64 is outside the model.
* Go maps (`map[string]interface\x7b\x7d`) become association lists looked up by
  first match; mappath never mutates them, so insertion order is irrelevant.
  The `map[interface\x7b\x7d]interface\x7b\x7d` variant produced by permissive decoders
  (whose keys the source stringifies on access) is not modeled separately.
* Go slices carry their static element kind (`GoKind`), because
  `reflect.Value.Index(i).Kind()` reports the static element type: elements of
  `[]interface\x7b\x7d` read as `Interface`, elements of `[]string` as `String`.
* Go's `(value, error)` returns become `Except GoError`; `nil` document values
  (JSON null) are outside the model.
-/

namespace Mappath

/-- The `reflect.Kind` values that mappath documents and accessors use. -/
inductive GoKind where
  | kBool
  | kInt
  | kFloat64
  | kString
  | kMap
  | kSlice
  | kInterface
  deriving DecidableEq, Repr

/-- `reflect.Kind.String()` restricted to the kinds above. -/
def GoKind.str : GoKind → String
  | .kBool => "bool"
  | .kInt => "int"
  | .kFloat64 => "float64"
  | .kString => "string"
  | .kMap => "map"
  | .kSlice => "slice"
  | .kInterface => "interface"

/-- A dynamically-typed Go value stored in a mappath document: scalar
(bool, int, float64-as-rational, string), a string-keyed map, or a slice
tagged with its static element kind. -/
inductive Val where
  | vBool (b : Bool)
  | vInt (n : Int)
  | vFloat (q : Rat)
  | vStr (s : String)
  | vMap (m : List (String × Val))
  | vSlice (elemK : GoKind) (elems : List Val)
  deriving Repr

instance : Inhabited Val := ⟨.vBool false⟩

/-- A document root: the wrapped `map[string]interface\x7b\x7d`. -/
abbrev GoMap := List (String × Val)

/-- `reflect.TypeOf(val).Kind()` of an interface-unboxed value. -/
def Val.kind : Val → GoKind
  | .vBool _ => .kBool
  | .vInt _ => .kInt
  | .vFloat _ => .kFloat64
  | .vStr _ => .kString
  | .vMap _ => .kMap
  | .vSlice _ _ => .kSlice

/-- reflect's typed reader `.Bool()`; the source only applies it to elements
whose static kind is `Bool`, so the default branch is never reached there. -/
def Val.asBool : Val → Bool
  | .vBool b => b
  | _ => false

/-- reflect's typed reader `.Int()` (see `Val.asBool`). -/
def Val.asInt : Val → Int
  | .vInt n => n
  | _ => 0

/-- reflect's typed reader `.Float()` (see `Val.asBool`). -/
def Val.asFloat : Val → Rat
  | .vFloat q => q
  | _ => 0

/-- reflect's typed reader `.String()` (see `Val.asBool`). -/
def Val.asStr : Val → String
  | .vStr s => s
  | _ => ""

/-- The `val.(map[string]interface\x7b\x7d)` type assertion on a map value. -/
def Val.asMap : Val → List (String × Val)
  | .vMap m => m
  | _ => []

/-- Go map read `current[name]`: lookup by key (keys are unique in Go maps;
an association list with first-match lookup represents that faithfully). -/
def goLookup (m : GoMap) (k : String) : Option Val :=
  match m with
  | [] => none
  | (k', v) :: rest => if k' = k then some v else goLookup rest k

/-- `strings.Split(path, "/")` on the character list: splits at every `/`
and always returns at least one (possibly empty) segment. -/
def splitSlash : List Char → List (List Char)
  | [] => [[]]
  | c :: cs =>
    match splitSlash cs with
    | [] => [[]]
    | s :: rest => if c = '/' then [] :: s :: rest else (c :: s) :: rest

/-- `strings.Split(path, "/")` as used by `Get` and `Has` (mappath.go:103,164). -/
def goSplitPath (p : String) : List String :=
  (splitSlash p.data).map String.mk

/-- Accumulator loop of a base-10 digit parser: fails on any non-digit. -/
def parseDigitsAux : List Char → Nat → Option Nat
  | [], acc => some acc
  | c :: cs, acc =>
    if c.isDigit then parseDigitsAux cs (acc * 10 + (c.toNat - '0'.toNat)) else none

/-- Parse a nonempty, all-digit character list as a base-10 natural. -/
def parseDigits : List Char → Option Nat
  | [] => none
  | c :: cs => parseDigitsAux (c :: cs) 0

/-- `strconv.Atoi`: an optional single `+`/`-` sign followed by one or more
base-10 digits and nothing else. (64-bit range saturation is not modeled;
documents in scope never hold out-of-range spellings.) -/
def goAtoi (s : String) : Option Int :=
  match s.data with
  | '+' :: rest => (parseDigits rest).map (fun n => (n : Int))
  | '-' :: rest => (parseDigits rest).map (fun n => -(n : Int))
  | l => (parseDigits l).map (fun n => (n : Int))

/-- Split off the leading run of base-10 digits. -/
def spanDigits : List Char → List Char × List Char
  | [] => ([], [])
  | c :: cs =>
    if c.isDigit then
      match spanDigits cs with
      | (d, r) => (c :: d, r)
    else ([], c :: cs)

/-- Numeric value of a digit run (most significant first). -/
def digitsToNat (l : List Char) : Nat :=
  l.foldl (fun acc c => acc * 10 + (c.toNat - '0'.toNat)) 0

/-- Exponent part of a float literal after `e`/`E`: optional sign, digits. -/
def parseExp : List Char → Option Int
  | '+' :: rest => (parseDigits rest).map (fun n => (n : Int))
  | '-' :: rest => (parseDigits rest).map (fun n => -(n : Int))
  | l => (parseDigits l).map (fun n => (n : Int))

/-- `10 ^ e` as a rational, for integer `e`. -/
def ratPow10 (e : Int) : Rat :=
  if 0 ≤ e then ((10 ^ e.toNat : Nat) : Rat) else 1 / ((10 ^ (-e).toNat : Nat) : Rat)

/-- Unsigned part of `strconv.ParseFloat`: digits and/or a fractional part
around an optional dot, then an optional `e`/`E` exponent; at least one
mantissa digit is required and the whole input must be consumed. The special
spellings (`Inf`, `NaN`, hexadecimal floats, underscore separators) are
outside the model, as is rounding to binary float64. -/
def goParseFloatMag (l : List Char) : Option Rat :=
  match spanDigits l with
  | (ip, r1) =>
    match r1 with
    | [] => if ip.isEmpty then none else some ((digitsToNat ip : Nat) : Rat)
    | '.' :: r2 =>
      match spanDigits r2 with
      | (fp, r3) =>
        if ip.isEmpty && fp.isEmpty then none
        else
          let mant : Rat :=
            ((digitsToNat ip : Nat) : Rat) + ((digitsToNat fp : Nat) : Rat) / ((10 ^ fp.length : Nat) : Rat)
          match r3 with
          | [] => some mant
          | 'e' :: r4 => (parseExp r4).map (fun e => mant * ratPow10 e)
          | 'E' :: r4 => (parseExp r4).map (fun e => mant * ratPow10 e)
          | _ => none
    | 'e' :: r2 =>
      if ip.isEmpty then none
      else (parseExp r2).map (fun e => ((digitsToNat ip : Nat) : Rat) * ratPow10 e)
    | 'E' :: r2 =>
      if ip.isEmpty then none
      else (parseExp r2).map (fun e => ((digitsToNat ip : Nat) : Rat) * ratPow10 e)
    | _ => none

/-- `strconv.ParseFloat(s, 64)` (decimal forms; see `goParseFloatMag`). -/
def goParseFloat (s : String) : Option Rat :=
  match s.data with
  | '+' :: rest => goParseFloatMag rest
  | '-' :: rest => (goParseFloatMag rest).map Neg.neg
  | l => goParseFloatMag l

/-- Go's `int(f)` conversion from float64: truncation toward zero. -/
def goTrunc (q : Rat) : Int :=
  if 0 ≤ q then ⌊q⌋ else -⌊-q⌋

/-- Exactly `k` base-10 digit characters of `n % 10 ^ k`, most significant
first; used for the fixed nine-digit fractional part of `%.9f`. -/
def digitsFixed : Nat → Nat → List Char
  | 0, _ => []
  | k + 1, n => digitsFixed k (n / 10) ++ [Nat.digitChar (n % 10)]

/-- Decimal digit spelling of a natural (fuel-based so the kernel can
evaluate it); models Go's `%d` on non-negative values. -/
def natReprAux : Nat → Nat → List Char
  | 0, _ => []
  | fuel + 1, n => if n < 10 then [Nat.digitChar n] else natReprAux fuel (n / 10) ++ [Nat.digitChar (n % 10)]

/-- Decimal spelling of a natural. -/
def natRepr (n : Nat) : String :=
  String.mk (natReprAux (n + 1) n)

/-- Go's `fmt.Sprintf("%d", n)` on an int. -/
def intRepr (n : Int) : String :=
  if n < 0 then "-" ++ natRepr (-n).toNat else natRepr n.toNat

/-- `fmt.Sprintf("%.9f", f)` on a non-negative rational float model: integer
part, dot, then exactly nine fractional digits of the value rounded to nine
decimal places (half away from zero standing in for the binary rounding of
the real float64, which the claims never exercise). -/
def formatFloat9Abs (q : Rat) : String :=
  let n : Nat := (⌊q * 1000000000 + 1 / 2⌋).toNat
  natRepr (n / 1000000000) ++ "." ++ String.mk (digitsFixed 9 (n % 1000000000))

/-- `fmt.Sprintf("%.9f", f)`: sign, then `formatFloat9Abs` of the magnitude. -/
def formatFloat9 (q : Rat) : String :=
  if q < 0 then "-" ++ formatFloat9Abs (-q) else formatFloat9Abs q

/-!
## The path resolver (mappath.go:726-766)

The source walks the split path with three mutually recursive helpers:
`getBranch` (map node: look the leading segment up, continue), `getArray`
(slice node: `strconv.Atoi` the leading segment, bounds-check, continue) and
`getNext` (dispatch on the current node's kind, or stop when one segment is
left). `getNext` receives the segment list with the already-matched segment
still at its head and recurses on the tail, so the three fuse into one
structural recursion over the remaining segments, `getNext` below;
`getBranch` keeps its source shape on top of it.
-/

/-- `MapPath.getNext` (745-766) fused with `getArray` (736-743) and the
recursive call of `getBranch`: continue resolution from `val` through the
segments that remain after the one already matched. A slice consumes the
next segment as a base-10 `strconv.Atoi` index valid in `[0, length)`;
a map looks it up as a key; a scalar with segments remaining is a dead end. -/
def getNext (val : Val) (rest : List String) : Option Val :=
  match rest with
  | [] => some val
  | seg :: rest' =>
    match val with
    | .vMap m =>
      match goLookup m seg with
      | none => none
      | some v => getNext v rest'
    | .vSlice _ elems =>
      match goAtoi seg with
      | none => none
      | some idx =>
        if idx < 0 then none
        else
          match elems[idx.toNat]? with
          | none => none
          | some v => getNext v rest'
    | _ => none

/-- `MapPath.getBranch` (726-734): look the first segment up in the current
map and hand the value to `getNext`. `strings.Split` never yields an empty
segment list, so the `[]` case is dead. -/
def getBranch (pathParts : List String) (current : GoMap) : Option Val :=
  match pathParts with
  | [] => none
  | name :: rest =>
    match goLookup current name with
    | none => none
    | some val => getNext val rest

/-!
## Errors (mappath.go:54-83)

Besides the three declared error types, two accessor branches return foreign
errors: `GetInt`/`GetFloat` pass a raw `strconv` error through when a string
fails to parse (`parseErr` carries the failing function and input), and
`GetBool` builds one with `fmt.Errorf` (`convErr`).
-/

/-- Every error value the accessors can return. -/
inductive GoError where
  | notFound (path : String)
  | invalidType (source : Val) (expected : String)
  | unsupportedType (target : String)
  | parseErr (fn : String) (input : String)
  | convErr (msg : String)
  deriving Repr

/-- Is this a `NotFoundError`? -/
def GoError.isNotFound : GoError → Bool
  | .notFound _ => true
  | _ => false

/-- Is this an `*InvalidTypeError`? -/
def GoError.isInvalidType : GoError → Bool
  | .invalidType _ _ => true
  | _ => false

/-- Is this an `UnsupportedTypeError`? -/
def GoError.isUnsupportedType : GoError → Bool
  | .unsupportedType _ => true
  | _ => false

/-- Did the call succeed (`err == nil`)? -/
def exceptIsOk {α : Type} : Except GoError α → Bool
  | .ok _ => true
  | .error _ => false

/-!
## `Get`, `Has` and the scalar accessors (mappath.go:102-451)

Go's variadic `fallback ...T` becomes `Option T`: the source only ever reads
`fallback[0]`. Each scalar accessor passes its fallback (when present) down
to `Get` and then runs one type-switch over the resolved value; the switch
bodies are the `coerce*` functions below.
-/

/-- `MapPath.Get` (102-110): resolve, else fallback, else `NotFoundError`. -/
def Get (root : GoMap) (path : String) (fallback : Option Val) : Except GoError Val :=
  match getBranch (goSplitPath path) root with
  | some val => .ok val
  | none =>
    match fallback with
    | some f => .ok f
    | none => .error (.notFound path)

/-- `MapPath.Has` (163-166): same resolution as `Get`, existence only. -/
def Has (root : GoMap) (path : String) : Bool :=
  (getBranch (goSplitPath path) root).isSome

/-- Type switch of `GetBool` (180-214): bool identity; int/float by zero
test; the four literal strings; anything else `InvalidTypeError`. -/
def coerceBool (val : Val) : Except GoError Bool :=
  match val with
  | .vBool b => .ok b
  | .vInt n => if n = 0 then .ok false else .ok true
  | .vFloat q => if q = 0 then .ok false else .ok true
  | .vStr s =>
    if s = "true" then .ok true
    else if s = "yes" then .ok true
    else if s = "false" then .ok false
    else if s = "no" then .ok false
    else .error (.convErr ("Cannot convert \"" ++ s ++ "\" to bool (must be \"true\", \"yes\", \"false\" or \"no\")"))
  | _ => .error (.invalidType val "bool")

/-- `MapPath.GetBool` (169-215). -/
def GetBool (root : GoMap) (path : String) (fallback : Option Bool) : Except GoError Bool :=
  match Get root path (fallback.map Val.vBool) with
  | .error e => .error e
  | .ok val => coerceBool val

/-- Type switch of `GetInt` (243-270): bool to 1/0; string through
`strconv.Atoi`, then `strconv.ParseFloat` truncated toward zero, the `Atoi`
error surfacing when both fail; int identity; float truncated toward zero;
anything else `InvalidTypeError`. -/
def coerceInt (val : Val) : Except GoError Int :=
  match val with
  | .vBool b => if b then .ok 1 else .ok 0
  | .vStr s =>
    match goAtoi s with
    | some n => .ok n
    | none =>
      match goParseFloat s with
      | some q => .ok (goTrunc q)
      | none => .error (.parseErr "Atoi" s)
  | .vInt n => .ok n
  | .vFloat q => .ok (goTrunc q)
  | _ => .error (.invalidType val "int")

/-- `MapPath.GetInt` (231-271). -/
def GetInt (root : GoMap) (path : String) (fallback : Option Int) : Except GoError Int :=
  match Get root path (fallback.map Val.vInt) with
  | .error e => .error e
  | .ok val => coerceInt val

/-- Type switch of `GetFloat` (298-322): bool to 1.0/0.0; string through
`strconv.ParseFloat`, its error surfacing on failure; float identity; int
widened; anything else `InvalidTypeError`. -/
def coerceFloat (val : Val) : Except GoError Rat :=
  match val with
  | .vBool b => if b then .ok 1 else .ok 0
  | .vStr s =>
    match goParseFloat s with
    | some q => .ok q
    | none => .error (.parseErr "ParseFloat" s)
  | .vFloat q => .ok q
  | .vInt n => .ok (n : Rat)
  | _ => .error (.invalidType val "float64")

/-- `MapPath.GetFloat` (287-323). -/
def GetFloat (root : GoMap) (path : String) (fallback : Option Rat) : Except GoError Rat :=
  match Get root path (fallback.map Val.vFloat) with
  | .error e => .error e
  | .ok val => coerceFloat val

/-- Type switch of `GetString` (350-370): bool to "true"/"false"; string
identity; float via `%.9f`; int via `%d`; anything else `InvalidTypeError`
(whose expected-type field the source writes as "float64" here). -/
def coerceString (val : Val) : Except GoError String :=
  match val with
  | .vBool b => if b then .ok "true" else .ok "false"
  | .vStr s => .ok s
  | .vFloat q => .ok (formatFloat9 q)
  | .vInt n => .ok (intRepr n)
  | _ => .error (.invalidType val "float64")

/-- `MapPath.GetString` (339-371). -/
def GetString (root : GoMap) (path : String) (fallback : Option String) : Except GoError String :=
  match Get root path (fallback.map Val.vStr) with
  | .error e => .error e
  | .ok val => coerceString val

/-- Type switch of `GetMap` (399-410): a map value is returned as-is
(the `map[interface\x7b\x7d]interface\x7b\x7d` stringification branch collapses into
it under the unified map representation); anything else `InvalidTypeError`. -/
def coerceMap (val : Val) : Except GoError GoMap :=
  match val with
  | .vMap m => .ok m
  | _ => .error (.invalidType val "map")

/-- `MapPath.GetMap` (387-411). -/
def GetMap (root : GoMap) (path : String) (fallback : Option GoMap) : Except GoError GoMap :=
  match Get root path (fallback.map Val.vMap) with
  | .error e => .error e
  | .ok val => coerceMap val

/-!
## `GetArray` and the typed list accessors (mappath.go:453-724)

`GetArray` resolves the path (no fallback), requires a slice, returns early
on an empty one, allocates a result slice for the four supported element
targets (anything else is `UnsupportedTypeError`), then converts element by
element, aborting on the first failure. An element whose static kind equals
the target kind is copied; otherwise a per-target switch over the element's
static kind converts it, and a kind with no case produces an
`*InvalidTypeError` whose expected-type string embeds the element index via
`fmt.Sprintf` (two of those format strings have more verbs than arguments,
which Go renders as `%!s(MISSING)`/`%!v(MISSING)`; the strings below are the
exact `Sprintf` outputs).
-/

/-- The `interface\x7b\x7d` result of `GetArray`: one of the four allocated
carriers (`[]int`, `[]float64`, `[]string`, `[]map[string]interface\x7b\x7d`). -/
inductive ArrOut where
  | arrInts (l : List Int)
  | arrFloats (l : List Rat)
  | arrStrings (l : List String)
  | arrMaps (l : List GoMap)
  deriving Repr

/-- The `res.([]int)` type assertion in `GetInts`; `GetArray` with an int
target only ever produces `arrInts`, so the default is dead. -/
def ArrOut.asInts : ArrOut → List Int
  | .arrInts l => l
  | _ => []

/-- The `res.([]float64)` type assertion in `GetFloats` (see `asInts`). -/
def ArrOut.asFloats : ArrOut → List Rat
  | .arrFloats l => l
  | _ => []

/-- The `res.([]string)` type assertion in `GetStrings` (see `asInts`). -/
def ArrOut.asStrings : ArrOut → List String
  | .arrStrings l => l
  | _ => []

/-- The `res.([]map[string]interface\x7b\x7d)` assertion in `GetMaps` (see `asInts`). -/
def ArrOut.asMaps : ArrOut → List GoMap
  | .arrMaps l => l
  | _ => []

/-- Element conversion toward `[]int` (GetArray 495-521): copy ints; bool to
1/0; float truncated toward zero; string through `strconv.Atoi` and, on
failure, `strconv.ParseFloat` with the error discarded (`f, _ :=`), so an
unparseable string becomes `int(0.0) = 0`; any other element kind is an
`*InvalidTypeError` carrying the element and its index. -/
def convIntElem (elemK : GoKind) (i : Nat) (v : Val) : Except GoError Int :=
  if elemK = .kInt then .ok v.asInt
  else
    match elemK with
    | .kBool => if v.asBool then .ok 1 else .ok 0
    | .kFloat64 => .ok (goTrunc v.asFloat)
    | .kString =>
      match goAtoi v.asStr with
      | some n => .ok n
      | none => .ok (goTrunc ((goParseFloat v.asStr).getD 0))
    | _ => .error (.invalidType v ("[" ++ natRepr i ++ "]array<int>"))

/-- Element conversion toward `[]float64` (GetArray 524-543): copy floats;
bool to 1.0/0.0; int widened; string through `strconv.ParseFloat` with the
error discarded (`v, _ :=`), so an unparseable string becomes `0.0`; any
other element kind is an `*InvalidTypeError` with the index. -/
def convFloatElem (elemK : GoKind) (i : Nat) (v : Val) : Except GoError Rat :=
  if elemK = .kFloat64 then .ok v.asFloat
  else
    match elemK with
    | .kBool => if v.asBool then .ok 1 else .ok 0
    | .kInt => .ok ((v.asInt : Int) : Rat)
    | .kString => .ok ((goParseFloat v.asStr).getD 0)
    | _ => .error (.invalidType v ("[" ++ natRepr i ++ "]array<float64>"))

/-- Element conversion toward `[]string` (GetArray 546-573): copy strings;
bool to "true"/"false"; int via `%d`; float via `%.9f`; an interface-typed
element is unwrapped by a `.(string)` assertion that fails on non-strings;
any other element kind is an `*InvalidTypeError` with the index (the two
failure format strings have missing-argument verbs, reproduced exactly). -/
def convStrElem (elemK : GoKind) (i : Nat) (v : Val) : Except GoError String :=
  if elemK = .kString then .ok v.asStr
  else
    match elemK with
    | .kBool => if v.asBool then .ok "true" else .ok "false"
    | .kInt => .ok (intRepr v.asInt)
    | .kFloat64 => .ok (formatFloat9 v.asFloat)
    | .kInterface =>
      match v with
      | .vStr s => .ok s
      | _ => .error (.invalidType v ("[" ++ natRepr i ++ "]array<%!s(MISSING)> - interface"))
    | _ => .error (.invalidType v ("[" ++ natRepr i ++ "]array<string> - %!v(MISSING)"))

/-- Element conversion toward `[]map[string]interface\x7b\x7d`: the conversion
switch of GetArray (495-577) has no `case reflect.Map`, so only elements of
a statically map-typed slice are copied; every other element kind falls to
the outer default (575-576), an `*InvalidTypeError` with the index. -/
def convMapElem (elemK : GoKind) (i : Nat) (v : Val) : Except GoError GoMap :=
  if elemK = .kMap then .ok v.asMap
  else .error (.invalidType v ("[" ++ natRepr i ++ "]array<map>"))

/-- The conversion loop of `GetArray` (488-579): convert each element with
its index, returning the first error. -/
def convList {α : Type} (step : Nat → Val → Except GoError α) : Nat → List Val → Except GoError (List α)
  | _, [] => .ok []
  | i, v :: rest =>
    match step i v with
    | .error e => .error e
    | .ok a =>
      match convList step (i + 1) rest with
      | .error e => .error e
      | .ok l => .ok (a :: l)

/-- `MapPath.GetArray` (456-582). The Go triple `(interface\x7b\x7d, bool, error)`
becomes `Except GoError (Option ArrOut)`: `.error e` for `(nil, false, e)`,
`.ok none` for the empty-slice early return `(nil, false, nil)`, and
`.ok (some out)` for `(out, true, nil)`. -/
def GetArray (root : GoMap) (refType : GoKind) (path : String) : Except GoError (Option ArrOut) :=
  match Get root path none with
  | .error e => .error e
  | .ok val =>
    match val with
    | .vSlice elemK elems =>
      if elems.length = 0 then .ok none
      else
        match refType with
        | .kInt => (convList (convIntElem elemK) 0 elems).map (fun l => some (.arrInts l))
        | .kFloat64 => (convList (convFloatElem elemK) 0 elems).map (fun l => some (.arrFloats l))
        | .kString => (convList (convStrElem elemK) 0 elems).map (fun l => some (.arrStrings l))
        | .kMap => (convList (convMapElem elemK) 0 elems).map (fun l => some (.arrMaps l))
        | k => .error (.unsupportedType k.str)
    | _ => .error (.invalidType val "array")

/-- `MapPath.GetInts` (586-597): fallback only on `NotFoundError`; the empty
slice becomes `[]int\x7b\x7d`. -/
def GetInts (root : GoMap) (path : String) (fallback : Option (List Int)) : Except GoError (List Int) :=
  match GetArray root .kInt path with
  | .error e =>
    match e, fallback with
    | .notFound _, some fb => .ok fb
    | _, _ => .error e
  | .ok none => .ok []
  | .ok (some out) => .ok out.asInts

/-- `MapPath.GetFloats` (614-625). -/
def GetFloats (root : GoMap) (path : String) (fallback : Option (List Rat)) : Except GoError (List Rat) :=
  match GetArray root .kFloat64 path with
  | .error e =>
    match e, fallback with
    | .notFound _, some fb => .ok fb
    | _, _ => .error e
  | .ok none => .ok []
  | .ok (some out) => .ok out.asFloats

/-- `MapPath.GetStrings` (642-653). -/
def GetStrings (root : GoMap) (path : String) (fallback : Option (List String)) : Except GoError (List String) :=
  match GetArray root .kString path with
  | .error e =>
    match e, fallback with
    | .notFound _, some fb => .ok fb
    | _, _ => .error e
  | .ok none => .ok []
  | .ok (some out) => .ok out.asStrings

/-- `MapPath.GetMaps` (669-680). -/
def GetMaps (root : GoMap) (path : String) (fallback : Option (List GoMap)) : Except GoError (List GoMap) :=
  match GetArray root .kMap path with
  | .error e =>
    match e, fallback with
    | .notFound _, some fb => .ok fb
    | _, _ => .error e
  | .ok none => .ok []
  | .ok (some out) => .ok out.asMaps

/-!
## Helper lemmas
-/

theorem get_found {root : GoMap} {path : String} {v : Val}
    (h : getBranch (goSplitPath path) root = some v) (fb : Option Val) :
    Get root path fb = .ok v := by
  simp [Get, h]

theorem get_absent_some {root : GoMap} {path : String}
    (h : getBranch (goSplitPath path) root = none) (f : Val) :
    Get root path (some f) = .ok f := by
  simp [Get, h]

theorem get_absent_none {root : GoMap} {path : String}
    (h : getBranch (goSplitPath path) root = none) :
    Get root path none = .error (.notFound path) := by
  simp [Get, h]

theorem coerceBool_error_shape {v : Val} {e : GoError} (h : coerceBool v = .error e) :
    e.isNotFound = false ∧ e.isUnsupportedType = false := by
  cases v <;> simp only [coerceBool] at h <;> (repeat' split at h) <;>
    first
      | exact Except.noConfusion h
      | (injection h with h; subst h; exact ⟨rfl, rfl⟩)

theorem coerceInt_error_shape {v : Val} {e : GoError} (h : coerceInt v = .error e) :
    e.isNotFound = false ∧ e.isUnsupportedType = false := by
  cases v <;> simp only [coerceInt] at h <;> (repeat' split at h) <;>
    first
      | exact Except.noConfusion h
      | (injection h with h; subst h; exact ⟨rfl, rfl⟩)

theorem coerceFloat_error_shape {v : Val} {e : GoError} (h : coerceFloat v = .error e) :
    e.isNotFound = false ∧ e.isUnsupportedType = false := by
  cases v <;> simp only [coerceFloat] at h <;> (repeat' split at h) <;>
    first
      | exact Except.noConfusion h
      | (injection h with h; subst h; exact ⟨rfl, rfl⟩)

theorem coerceString_error_shape {v : Val} {e : GoError} (h : coerceString v = .error e) :
    e.isNotFound = false ∧ e.isUnsupportedType = false := by
  cases v <;> simp only [coerceString] at h <;> (repeat' split at h) <;>
    first
      | exact Except.noConfusion h
      | (injection h with h; subst h; exact ⟨rfl, rfl⟩)

theorem coerceMap_error_shape {v : Val} {e : GoError} (h : coerceMap v = .error e) :
    e.isNotFound = false ∧ e.isUnsupportedType = false := by
  cases v <;> simp only [coerceMap] at h <;>
    first
      | exact Except.noConfusion h
      | (injection h with h; subst h; exact ⟨rfl, rfl⟩)

theorem convIntElem_error {elemK : GoKind} {i : Nat} {v : Val} {e : GoError}
    (h : convIntElem elemK i v = .error e) :
    e = .invalidType v ("[" ++ natRepr i ++ "]array<int>") := by
  simp only [convIntElem] at h
  repeat' split at h
  all_goals first
    | exact Except.noConfusion h
    | (injection h with h; exact h.symm)

theorem convFloatElem_error {elemK : GoKind} {i : Nat} {v : Val} {e : GoError}
    (h : convFloatElem elemK i v = .error e) :
    e = .invalidType v ("[" ++ natRepr i ++ "]array<float64>") := by
  simp only [convFloatElem] at h
  repeat' split at h
  all_goals first
    | exact Except.noConfusion h
    | (injection h with h; exact h.symm)

theorem convStrElem_error {elemK : GoKind} {i : Nat} {v : Val} {e : GoError}
    (h : convStrElem elemK i v = .error e) :
    e.isInvalidType = true ∧ e.isNotFound = false ∧ e.isUnsupportedType = false := by
  simp only [convStrElem] at h
  repeat' split at h
  all_goals first
    | exact Except.noConfusion h
    | (injection h with h; subst h; exact ⟨rfl, rfl, rfl⟩)

theorem convMapElem_error {elemK : GoKind} {i : Nat} {v : Val} {e : GoError}
    (h : convMapElem elemK i v = .error e) :
    e = .invalidType v ("[" ++ natRepr i ++ "]array<map>") := by
  simp only [convMapElem] at h
  split at h
  all_goals first
    | exact Except.noConfusion h
    | (injection h with h; exact h.symm)

theorem convList_error {α : Type} {step : Nat → Val → Except GoError α} {e : GoError} :
    ∀ {l : List Val} {i : Nat}, convList step i l = .error e → ∃ j v, step j v = .error e := by
  intro l
  induction l with
  | nil => intro i h; exact Except.noConfusion h
  | cons v rest ih =>
    intro i h
    simp only [convList] at h
    cases hs : step i v with
    | error e' =>
      rw [hs] at h
      injection h with h
      exact ⟨i, v, by rw [hs, h]⟩
    | ok a =>
      rw [hs] at h
      cases hr : convList step (i + 1) rest with
      | error e' =>
        rw [hr] at h
        injection h with h
        subst h
        exact ih hr
      | ok l' => rw [hr] at h; exact Except.noConfusion h

/-!
## C10 — `Has` and `Get` agree on existence
-/

/-- C10: for every document and path, `Has(path)` is true exactly when
`Get(path)` without a fallback succeeds; both run the same resolution
(`getBranch` over the same split path). -/
theorem C10_has_agrees_with_get :
    ∀ (root : GoMap) (path : String), Has root path = exceptIsOk (Get root path none) := by
  intro root path
  cases h : getBranch (goSplitPath path) root <;> simp [Has, Get, h, exceptIsOk]

/-!
## C3 — a fallback covers absence and suppresses `NotFound`
-/

/-- C3: on a path absent from the document every scalar accessor returns a
supplied fallback of its type with no error and, without a fallback, fails
with `NotFoundError(path)`; moreover no scalar accessor ever returns a
`NotFoundError` when a fallback is supplied. -/
theorem C3_fallback_covers_absence :
    (∀ (root : GoMap) (path : String),
      getBranch (goSplitPath path) root = none →
      (∀ fb, GetBool root path (some fb) = .ok fb) ∧
      (∀ fb, GetInt root path (some fb) = .ok fb) ∧
      (∀ fb, GetFloat root path (some fb) = .ok fb) ∧
      (∀ fb, GetString root path (some fb) = .ok fb) ∧
      (∀ fb, GetMap root path (some fb) = .ok fb) ∧
      GetBool root path none = .error (.notFound path) ∧
      GetInt root path none = .error (.notFound path) ∧
      GetFloat root path none = .error (.notFound path) ∧
      GetString root path none = .error (.notFound path) ∧
      GetMap root path none = .error (.notFound path)) ∧
    (∀ (root : GoMap) (path : String) (e : GoError),
      ((∃ fb, GetBool root path (some fb) = .error e) ∨
       (∃ fb, GetInt root path (some fb) = .error e) ∨
       (∃ fb, GetFloat root path (some fb) = .error e) ∨
       (∃ fb, GetString root path (some fb) = .error e) ∨
       (∃ fb, GetMap root path (some fb) = .error e)) →
      e.isNotFound = false) := by
  constructor
  · intro root path h
    refine ⟨?_, ?_, ?_, ?_, ?_, ?_, ?_, ?_, ?_, ?_⟩
    · intro fb
      simp [GetBool, Option.map, get_absent_some h (Val.vBool fb), coerceBool]
    · intro fb
      simp [GetInt, Option.map, get_absent_some h (Val.vInt fb), coerceInt]
    · intro fb
      simp [GetFloat, Option.map, get_absent_some h (Val.vFloat fb), coerceFloat]
    · intro fb
      simp [GetString, Option.map, get_absent_some h (Val.vStr fb), coerceString]
    · intro fb
      simp [GetMap, Option.map, get_absent_some h (Val.vMap fb), coerceMap]
    · simp [GetBool, Option.map, get_absent_none h]
    · simp [GetInt, Option.map, get_absent_none h]
    · simp [GetFloat, Option.map, get_absent_none h]
    · simp [GetString, Option.map, get_absent_none h]
    · simp [GetMap, Option.map, get_absent_none h]
  · intro root path e h
    cases hg : getBranch (goSplitPath path) root with
    | none =>
      rcases h with ⟨fb, h⟩ | ⟨fb, h⟩ | ⟨fb, h⟩ | ⟨fb, h⟩ | ⟨fb, h⟩
      · simp [GetBool, Option.map, get_absent_some hg (Val.vBool fb), coerceBool] at h
      · simp [GetInt, Option.map, get_absent_some hg (Val.vInt fb), coerceInt] at h
      · simp [GetFloat, Option.map, get_absent_some hg (Val.vFloat fb), coerceFloat] at h
      · simp [GetString, Option.map, get_absent_some hg (Val.vStr fb), coerceString] at h
      · simp [GetMap, Option.map, get_absent_some hg (Val.vMap fb), coerceMap] at h
    | some v =>
      rcases h with ⟨fb, h⟩ | ⟨fb, h⟩ | ⟨fb, h⟩ | ⟨fb, h⟩ | ⟨fb, h⟩
      · simp only [GetBool, get_found hg] at h
        exact (coerceBool_error_shape h).1
      · simp only [GetInt, get_found hg] at h
        exact (coerceInt_error_shape h).1
      · simp only [GetFloat, get_found hg] at h
        exact (coerceFloat_error_shape h).1
      · simp only [GetString, get_found hg] at h
        exact (coerceString_error_shape h).1
      · simp only [GetMap, get_found hg] at h
        exact (coerceMap_error_shape h).1

/-- Witness for C3: on the empty document the path "x" is absent, so
`GetInt` with fallback 5 returns 5 with no error, and without a fallback it
fails with `NotFoundError("x")`. -/
theorem C3_fallback_covers_absence_witness :
    GetInt [] "x" (some 5) = .ok 5 ∧ GetInt [] "x" none = .error (.notFound "x") :=
  ⟨(C3_fallback_covers_absence.1 [] "x" rfl).2.1 5,
   (C3_fallback_covers_absence.1 [] "x" rfl).2.2.2.2.2.2.1⟩

/-!
## C2 — a fallback never masks a type mismatch, but not every mismatch is
`InvalidTypeError`
-/

/-- The document `{"a": "abc"}`. -/
def c2doc : GoMap := [("a", .vStr "abc")]

/-- Counterexample to C2 as stated: at `{"a": "abc"}` the value cannot be
coerced to int, and `GetInt` with fallback 7 does fail — but with the raw
`strconv.Atoi` error (`return 0, err` in mappath.go:259), not with an
`InvalidTypeError`. -/
theorem C2_counterexample :
    GetInt c2doc "a" (some 7) = .error (.parseErr "Atoi" "abc") ∧
    (GoError.parseErr "Atoi" "abc").isInvalidType = false :=
  ⟨rfl, rfl⟩

/-- C2 amended: when the path resolves, a supplied fallback never changes
any scalar accessor's outcome (so a type mismatch still fails despite the
fallback); the failure is an `InvalidTypeError` when the found value's kind
has no conversion rule (e.g. map or slice under `GetInt`), but a found
string that parses neither as int nor as float fails `GetInt` with the
pass-through `strconv.Atoi` error instead. -/
theorem C2_fallback_never_masks_type_mismatch :
    (∀ (root : GoMap) (path : String) (v : Val),
      getBranch (goSplitPath path) root = some v →
      (∀ fb, GetBool root path (some fb) = GetBool root path none) ∧
      (∀ fb, GetInt root path (some fb) = GetInt root path none) ∧
      (∀ fb, GetFloat root path (some fb) = GetFloat root path none) ∧
      (∀ fb, GetString root path (some fb) = GetString root path none) ∧
      (∀ fb, GetMap root path (some fb) = GetMap root path none)) ∧
    (∀ (root : GoMap) (path : String) (v : Val) (fb : Option Int),
      getBranch (goSplitPath path) root = some v →
      (v.kind = .kMap ∨ v.kind = .kSlice) →
      GetInt root path fb = .error (.invalidType v "int")) ∧
    (∀ (root : GoMap) (path : String) (s : String) (fb : Option Int),
      getBranch (goSplitPath path) root = some (.vStr s) →
      goAtoi s = none → goParseFloat s = none →
      GetInt root path fb = .error (.parseErr "Atoi" s)) := by
  refine ⟨?_, ?_, ?_⟩
  · intro root path v h
    refine ⟨?_, ?_, ?_, ?_, ?_⟩ <;> intro fb <;>
      simp only [GetBool, GetInt, GetFloat, GetString, GetMap, get_found h]
  · intro root path v fb h hk
    have hv : GetInt root path fb = coerceInt v := by
      simp only [GetInt, get_found h]
    rw [hv]
    cases v <;> simp [Val.kind] at hk <;> rfl
  · intro root path s fb h h1 h2
    have hv : GetInt root path fb = coerceInt (.vStr s) := by
      simp only [GetInt, get_found h]
    rw [hv]
    simp only [coerceInt, h1, h2]

/-- Witness for C2's amended theorem: the fallback leaves the failing
`GetInt` on `{"a": "abc"}` unchanged, and a map value under `GetInt` with a
fallback is an `InvalidTypeError`. -/
theorem C2_fallback_never_masks_type_mismatch_witness :
    GetInt c2doc "a" (some 9) = GetInt c2doc "a" none ∧
    GetInt [("b", .vMap [])] "b" (some 9) = .error (.invalidType (.vMap []) "int") :=
  ⟨(C2_fallback_never_masks_type_mismatch.1 c2doc "a" (.vStr "abc") rfl).2.1 9,
   C2_fallback_never_masks_type_mismatch.2.1 [("b", .vMap [])] "b" (.vMap []) (some 9) rfl (Or.inl rfl)⟩

/-!
## C8 — where `UnsupportedTypeError` can and cannot arise
-/

/-- C8: `GetMap` on a sequence fails with `InvalidTypeError` (never
`UnsupportedTypeError`); no scalar accessor ever returns
`UnsupportedTypeError`; and `GetArray` returns it exactly for the element
target kinds with no conversion rule (everything outside int, float64,
string, map), carrying that kind's name. -/
theorem C8_unsupported_only_from_get_array :
    (∀ (root : GoMap) (path : String) (fb : Option GoMap) (elemK : GoKind) (elems : List Val),
      getBranch (goSplitPath path) root = some (.vSlice elemK elems) →
      GetMap root path fb = .error (.invalidType (.vSlice elemK elems) "map")) ∧
    (∀ (root : GoMap) (path : String) (fb : Option Bool) (e : GoError),
      GetBool root path fb = .error e → e.isUnsupportedType = false) ∧
    (∀ (root : GoMap) (path : String) (fb : Option Int) (e : GoError),
      GetInt root path fb = .error e → e.isUnsupportedType = false) ∧
    (∀ (root : GoMap) (path : String) (fb : Option Rat) (e : GoError),
      GetFloat root path fb = .error e → e.isUnsupportedType = false) ∧
    (∀ (root : GoMap) (path : String) (fb : Option String) (e : GoError),
      GetString root path fb = .error e → e.isUnsupportedType = false) ∧
    (∀ (root : GoMap) (path : String) (fb : Option GoMap) (e : GoError),
      GetMap root path fb = .error e → e.isUnsupportedType = false) ∧
    (∀ (root : GoMap) (refType : GoKind) (path : String) (t : String),
      GetArray root refType path = .error (.unsupportedType t) →
      (refType = .kBool ∨ refType = .kSlice ∨ refType = .kInterface) ∧ t = refType.str) := by
  refine ⟨?_, ?_, ?_, ?_, ?_, ?_, ?_⟩
  · intro root path fb elemK elems h
    simp only [GetMap, get_found h, coerceMap]
  · intro root path fb e h
    cases hg : getBranch (goSplitPath path) root with
    | none =>
      cases fb with
      | none =>
        simp only [GetBool, Option.map, get_absent_none hg] at h
        injection h with h
        subst h
        rfl
      | some fb => simp [GetBool, Option.map, get_absent_some hg _, coerceBool] at h
    | some v =>
      simp only [GetBool, get_found hg] at h
      exact (coerceBool_error_shape h).2
  · intro root path fb e h
    cases hg : getBranch (goSplitPath path) root with
    | none =>
      cases fb with
      | none =>
        simp only [GetInt, Option.map, get_absent_none hg] at h
        injection h with h
        subst h
        rfl
      | some fb => simp [GetInt, Option.map, get_absent_some hg _, coerceInt] at h
    | some v =>
      simp only [GetInt, get_found hg] at h
      exact (coerceInt_error_shape h).2
  · intro root path fb e h
    cases hg : getBranch (goSplitPath path) root with
    | none =>
      cases fb with
      | none =>
        simp only [GetFloat, Option.map, get_absent_none hg] at h
        injection h with h
        subst h
        rfl
      | some fb => simp [GetFloat, Option.map, get_absent_some hg _, coerceFloat] at h
    | some v =>
      simp only [GetFloat, get_found hg] at h
      exact (coerceFloat_error_shape h).2
  · intro root path fb e h
    cases hg : getBranch (goSplitPath path) root with
    | none =>
      cases fb with
      | none =>
        simp only [GetString, Option.map, get_absent_none hg] at h
        injection h with h
        subst h
        rfl
      | some fb => simp [GetString, Option.map, get_absent_some hg _, coerceString] at h
    | some v =>
      simp only [GetString, get_found hg] at h
      exact (coerceString_error_shape h).2
  · intro root path fb e h
    cases hg : getBranch (goSplitPath path) root with
    | none =>
      cases fb with
      | none =>
        simp only [GetMap, Option.map, get_absent_none hg] at h
        injection h with h
        subst h
        rfl
      | some fb => simp [GetMap, Option.map, get_absent_some hg _, coerceMap] at h
    | some v =>
      simp only [GetMap, get_found hg] at h
      exact (coerceMap_error_shape h).2
  · intro root refType path t h
    cases hg : getBranch (goSplitPath path) root with
    | none => simp [GetArray, get_absent_none hg] at h
    | some v =>
      simp only [GetArray, get_found hg] at h
      cases v <;> try simp at h
      case vSlice elemK elems =>
        split at h
        · exact Except.noConfusion h
        · cases refType
          case kInt =>
            cases hc : convList (convIntElem elemK) 0 elems with
            | ok l => rw [hc] at h; simp [Except.map] at h
            | error e' =>
              rw [hc] at h
              simp only [Except.map] at h
              injection h with h
              subst h
              obtain ⟨j, w, hw⟩ := convList_error hc
              exact absurd (convIntElem_error hw) (by simp)
          case kFloat64 =>
            cases hc : convList (convFloatElem elemK) 0 elems with
            | ok l => rw [hc] at h; simp [Except.map] at h
            | error e' =>
              rw [hc] at h
              simp only [Except.map] at h
              injection h with h
              subst h
              obtain ⟨j, w, hw⟩ := convList_error hc
              exact absurd (convFloatElem_error hw) (by simp)
          case kString =>
            cases hc : convList (convStrElem elemK) 0 elems with
            | ok l => rw [hc] at h; simp [Except.map] at h
            | error e' =>
              rw [hc] at h
              simp only [Except.map] at h
              injection h with h
              subst h
              obtain ⟨j, w, hw⟩ := convList_error hc
              exact absurd (convStrElem_error hw).1 (by simp [GoError.isInvalidType])
          case kMap =>
            cases hc : convList (convMapElem elemK) 0 elems with
            | ok l => rw [hc] at h; simp [Except.map] at h
            | error e' =>
              rw [hc] at h
              simp only [Except.map] at h
              injection h with h
              subst h
              obtain ⟨j, w, hw⟩ := convList_error hc
              exact absurd (convMapElem_error hw) (by simp)
          case kBool =>
            injection h with h
            injection h with h
            exact ⟨Or.inl rfl, h.symm⟩
          case kSlice =>
            injection h with h
            injection h with h
            exact ⟨Or.inr (Or.inl rfl), h.symm⟩
          case kInterface =>
            injection h with h
            injection h with h
            exact ⟨Or.inr (Or.inr rfl), h.symm⟩

/-- Witness for C8: `GetMap` on the sequence `[1, 2, 3]` is an
`InvalidTypeError`, and `GetArray` with a bool element target on the same
sequence is `UnsupportedTypeError("bool")`. -/
theorem C8_unsupported_only_from_get_array_witness :
    GetMap [("a", .vSlice .kInt [.vInt 1, .vInt 2, .vInt 3])] "a" none
      = .error (.invalidType (.vSlice .kInt [.vInt 1, .vInt 2, .vInt 3]) "map") ∧
    ((GoKind.kBool = .kBool ∨ GoKind.kBool = .kSlice ∨ GoKind.kBool = .kInterface) ∧
      "bool" = GoKind.str .kBool) :=
  ⟨C8_unsupported_only_from_get_array.1 [("a", .vSlice .kInt [.vInt 1, .vInt 2, .vInt 3])] "a"
      none .kInt [.vInt 1, .vInt 2, .vInt 3] rfl,
   C8_unsupported_only_from_get_array.2.2.2.2.2.2
      [("a", .vSlice .kInt [.vInt 1, .vInt 2, .vInt 3])] .kBool "a" "bool" rfl⟩

/-!
## C4 — sequence nodes consume a base-10 index in bounds
-/

/-- The document `{"a": [{"b": "x"}]}`. -/
def c4doc : GoMap := [("a", .vSlice .kMap [.vMap [("b", .vStr "x")]])]

/-- C4: at a sequence node the next segment must `strconv.Atoi`-parse to an
index in `[0, length)`; resolution then descends into that element, while a
non-numeric segment or an out-of-range index is not-found. `"a/0/b"` on
`{"a": [{"b": "x"}]}` resolves to `"x"`; `"a/1/b"` is not found and
surfaces as `NotFoundError` through an accessor without fallback. -/
theorem C4_sequence_index_resolution :
    (∀ (elemK : GoKind) (elems : List Val) (seg : String) (rest : List String),
      goAtoi seg = none → getNext (.vSlice elemK elems) (seg :: rest) = none) ∧
    (∀ (elemK : GoKind) (elems : List Val) (seg : String) (rest : List String) (idx : Int),
      goAtoi seg = some idx → (idx < 0 ∨ (elems.length : Int) ≤ idx) →
      getNext (.vSlice elemK elems) (seg :: rest) = none) ∧
    (∀ (elemK : GoKind) (elems : List Val) (seg : String) (rest : List String) (idx : Int) (v : Val),
      goAtoi seg = some idx → 0 ≤ idx → elems[idx.toNat]? = some v →
      getNext (.vSlice elemK elems) (seg :: rest) = getNext v rest) ∧
    Get c4doc "a/0/b" none = .ok (.vStr "x") ∧
    Get c4doc "a/1/b" none = .error (.notFound "a/1/b") ∧
    GetString c4doc "a/1/b" none = .error (.notFound "a/1/b") := by
  refine ⟨?_, ?_, ?_, rfl, rfl, rfl⟩
  · intro elemK elems seg rest h
    simp [getNext, h]
  · intro elemK elems seg rest idx h hout
    simp only [getNext, h]
    rcases hout with hneg | hlen
    · simp [hneg]
    · rw [if_neg (by omega)]
      have : elems[idx.toNat]? = none := by
        rw [List.getElem?_eq_none_iff]
        omega
      rw [this]
  · intro elemK elems seg rest idx v h h0 hv
    simp only [getNext, h]
    rw [if_neg (by omega), hv]

/-- Witness for C4: a non-numeric segment on a sequence is a dead end, an
out-of-range index is a dead end, and index 0 descends into the element. -/
theorem C4_sequence_index_resolution_witness :
    getNext (.vSlice .kInt [.vInt 7]) ("x" :: []) = none ∧
    getNext (.vSlice .kInt [.vInt 7]) ("1" :: []) = none ∧
    getNext (.vSlice .kInt [.vInt 7]) ("0" :: []) = getNext (.vInt 7) [] :=
  ⟨C4_sequence_index_resolution.1 .kInt [.vInt 7] "x" [] rfl,
   C4_sequence_index_resolution.2.1 .kInt [.vInt 7] "1" [] 1 rfl (Or.inr (by norm_num)),
   C4_sequence_index_resolution.2.2.1 .kInt [.vInt 7] "0" [] 0 (.vInt 7) rfl (by norm_num) rfl⟩

/-!
## C5 — `GetInt` on bools and strings
-/

/-- The document `{"a": "123.456"}`. -/
def c5doc : GoMap := [("a", .vStr "123.456")]

/-- C5: a found `true` yields 1 and `false` yields 0; a found string is
parsed with `strconv.Atoi` first and, failing that, with
`strconv.ParseFloat` truncated toward zero (the truncation bounds spell out
"toward zero"); so `GetInt` on `"123.456"` is 123 with no error. -/
theorem C5_int_coercion_rules :
    (∀ (root : GoMap) (path : String) (fb : Option Int),
      getBranch (goSplitPath path) root = some (.vBool true) → GetInt root path fb = .ok 1) ∧
    (∀ (root : GoMap) (path : String) (fb : Option Int),
      getBranch (goSplitPath path) root = some (.vBool false) → GetInt root path fb = .ok 0) ∧
    (∀ (root : GoMap) (path : String) (fb : Option Int) (s : String) (n : Int),
      getBranch (goSplitPath path) root = some (.vStr s) → goAtoi s = some n →
      GetInt root path fb = .ok n) ∧
    (∀ (root : GoMap) (path : String) (fb : Option Int) (s : String) (q : Rat),
      getBranch (goSplitPath path) root = some (.vStr s) → goAtoi s = none →
      goParseFloat s = some q → GetInt root path fb = .ok (goTrunc q)) ∧
    (∀ q : Rat, |(goTrunc q : Rat)| ≤ |q| ∧ |q| < |(goTrunc q : Rat)| + 1) ∧
    GetInt c5doc "a" none = .ok 123 := by
  refine ⟨?_, ?_, ?_, ?_, ?_, ?_⟩
  · intro root path fb h
    simp [GetInt, get_found h, coerceInt]
  · intro root path fb h
    simp [GetInt, get_found h, coerceInt]
  · intro root path fb s n h hn
    simp [GetInt, get_found h, coerceInt, hn]
  · intro root path fb s q h hn hq
    simp [GetInt, get_found h, coerceInt, hn, hq]
  · intro q
    by_cases hq : 0 ≤ q
    · have h0 : (0 : Int) ≤ ⌊q⌋ := Int.floor_nonneg.mpr hq
      have h0' : (0 : Rat) ≤ (⌊q⌋ : Rat) := by exact_mod_cast h0
      simp only [goTrunc, if_pos hq]
      rw [abs_of_nonneg hq, abs_of_nonneg h0']
      exact ⟨Int.floor_le q, Int.lt_floor_add_one q⟩
    · push_neg at hq
      have h1 : (0 : Rat) ≤ -q := by linarith
      have h0 : (0 : Int) ≤ ⌊-q⌋ := Int.floor_nonneg.mpr h1
      have h0' : (0 : Rat) ≤ (⌊-q⌋ : Rat) := by exact_mod_cast h0
      simp only [goTrunc, if_neg (not_le.mpr hq)]
      rw [abs_of_nonpos (le_of_lt hq)]
      have habs : |((-⌊-q⌋ : Int) : Rat)| = (⌊-q⌋ : Rat) := by
        push_cast
        rw [abs_neg, abs_of_nonneg h0']
      rw [habs]
      exact ⟨Int.floor_le _, Int.lt_floor_add_one _⟩
  · have hv : GetInt c5doc "a" none = coerceInt (.vStr "123.456") := rfl
    have h1 : goAtoi "123.456" = none := rfl
    have h2 : goParseFloat "123.456" = some (15432 / 125) := by
      show goParseFloatMag ['1', '2', '3', '.', '4', '5', '6'] = some (15432 / 125)
      simp [goParseFloatMag, spanDigits, digitsToNat]
      norm_num
    have h3 : goTrunc ((15432 : Rat) / 125) = 123 := by
      simp [goTrunc]
      norm_num
    rw [hv]
    simp [coerceInt, h1, h2, h3]

/-- Witness for C5: `GetInt` on documents holding `true`, `false` and the
string "123.456". -/
theorem C5_int_coercion_rules_witness :
    GetInt [("t", .vBool true)] "t" none = .ok 1 ∧
    GetInt [("f", .vBool false)] "f" none = .ok 0 ∧
    GetInt [("n", .vStr "42")] "n" none = .ok 42 :=
  ⟨C5_int_coercion_rules.1 [("t", .vBool true)] "t" none rfl,
   C5_int_coercion_rules.2.1 [("f", .vBool false)] "f" none rfl,
   C5_int_coercion_rules.2.2.1 [("n", .vStr "42")] "n" none "42" 42 rfl rfl⟩

/-!
## C7 — an empty sequence short-circuits every list accessor
-/

/-- C7: when the path resolves to an empty sequence, `GetArray` returns the
empty result before any element-target check (so even an unsupported target
kind raises no error), and every typed list accessor returns an empty list
with no error. -/
theorem C7_empty_sequence_no_checks :
    ∀ (root : GoMap) (path : String) (elemK : GoKind),
      getBranch (goSplitPath path) root = some (.vSlice elemK []) →
      (∀ refType, GetArray root refType path = .ok none) ∧
      (∀ fb, GetInts root path fb = .ok []) ∧
      (∀ fb, GetFloats root path fb = .ok []) ∧
      (∀ fb, GetStrings root path fb = .ok []) ∧
      (∀ fb, GetMaps root path fb = .ok []) := by
  intro root path elemK h
  have ha : ∀ refType, GetArray root refType path = .ok none := by
    intro refType
    simp [GetArray, get_found h]
  exact ⟨ha,
    fun fb => by simp [GetInts, ha],
    fun fb => by simp [GetFloats, ha],
    fun fb => by simp [GetStrings, ha],
    fun fb => by simp [GetMaps, ha]⟩

/-- Witness for C7: on `{"a": []}` the int list accessor yields `[]` with no
error and `GetArray` with an unsupported bool target raises nothing. -/
theorem C7_empty_sequence_no_checks_witness :
    GetInts [("a", .vSlice .kInterface [])] "a" none = .ok [] ∧
    GetArray [("a", .vSlice .kInterface [])] .kBool "a" = .ok none :=
  ⟨(C7_empty_sequence_no_checks [("a", .vSlice .kInterface [])] "a" .kInterface rfl).2.1 none,
   (C7_empty_sequence_no_checks [("a", .vSlice .kInterface [])] "a" .kInterface rfl).1 .kBool⟩

/-!
## C6 — `GetString` formatting of floats and ints
-/

theorem string_data_append (s t : String) : (s ++ t).data = s.data ++ t.data := by
  cases s
  cases t
  rfl

theorem digitsFixed_length : ∀ (k n : Nat), (digitsFixed k n).length = k := by
  intro k
  induction k with
  | zero => intro n; rfl
  | succ k ih => intro n; simp [digitsFixed, ih]

theorem digitChar_isDigit : ∀ m : Nat, m < 10 → (Nat.digitChar m).isDigit = true := by decide

theorem digitsFixed_digits : ∀ (k n : Nat), ∀ c ∈ digitsFixed k n, c.isDigit = true := by
  intro k
  induction k with
  | zero => intro n c hc; simp [digitsFixed] at hc
  | succ k ih =>
    intro n c hc
    simp only [digitsFixed, List.mem_append, List.mem_singleton] at hc
    rcases hc with hc | hc
    · exact ih _ c hc
    · subst hc
      exact digitChar_isDigit _ (Nat.mod_lt _ (by norm_num))

theorem natReprAux_digits : ∀ (fuel n : Nat), ∀ c ∈ natReprAux fuel n, c.isDigit = true := by
  intro fuel
  induction fuel with
  | zero => intro n c hc; simp [natReprAux] at hc
  | succ fuel ih =>
    intro n c hc
    simp only [natReprAux] at hc
    split at hc
    · simp only [List.mem_singleton] at hc
      subst hc
      exact digitChar_isDigit _ (by omega)
    · simp only [List.mem_append, List.mem_singleton] at hc
      rcases hc with hc | hc
      · exact ih _ c hc
      · subst hc
        exact digitChar_isDigit _ (Nat.mod_lt _ (by norm_num))

theorem natRepr_digits (n : Nat) : ∀ c ∈ (natRepr n).data, c.isDigit = true :=
  natReprAux_digits (n + 1) n

theorem isDigit_ne_dot {c : Char} (h : c.isDigit = true) : c ≠ '.' := by
  intro hc
  subst hc
  simp at h

/-- Shape of `formatFloat9Abs`: digit characters, a dot, then exactly nine
digit characters. -/
theorem formatFloat9Abs_shape (q : Rat) :
    ∃ pre fr : String, formatFloat9Abs q = pre ++ "." ++ fr ∧ fr.length = 9 ∧
      (∀ c ∈ fr.data, c.isDigit = true) ∧ (∀ c ∈ pre.data, c.isDigit = true) := by
  refine ⟨natRepr ((⌊q * 1000000000 + 1 / 2⌋).toNat / 1000000000),
    String.mk (digitsFixed 9 ((⌊q * 1000000000 + 1 / 2⌋).toNat % 1000000000)), rfl, ?_, ?_, ?_⟩
  · show (digitsFixed 9 _).length = 9
    exact digitsFixed_length 9 _
  · exact digitsFixed_digits 9 _
  · exact natRepr_digits _

/-- The document `{"a": 123.456, "b": 123}`. -/
def c6doc : GoMap := [("a", .vFloat (123456 / 1000)), ("b", .vInt 123)]

/-- C6: a found float is formatted `%.9f` — fixed-point with exactly nine
fractional digits (the part after the single dot has length 9 and is all
digits, and nothing before it is a dot) — so 123.456 becomes
"123.456000000"; a found int is formatted `%d`, so 123 becomes "123". -/
theorem C6_string_formatting :
    (∀ (root : GoMap) (path : String) (fb : Option String) (q : Rat),
      getBranch (goSplitPath path) root = some (.vFloat q) →
      GetString root path fb = .ok (formatFloat9 q)) ∧
    (∀ q : Rat, ∃ pre fr : String,
      formatFloat9 q = pre ++ "." ++ fr ∧ fr.length = 9 ∧
      (∀ c ∈ fr.data, c.isDigit = true) ∧ (∀ c ∈ pre.data, c ≠ '.')) ∧
    (∀ (root : GoMap) (path : String) (fb : Option String) (n : Int),
      getBranch (goSplitPath path) root = some (.vInt n) →
      GetString root path fb = .ok (intRepr n)) ∧
    GetString c6doc "a" none = .ok "123.456000000" ∧
    GetString c6doc "b" none = .ok "123" := by
  refine ⟨?_, ?_, ?_, ?_, rfl⟩
  · intro root path fb q h
    simp [GetString, get_found h, coerceString]
  · intro q
    by_cases hq : q < 0
    · obtain ⟨pre, fr, heq, hlen, hfr, hpre⟩ := formatFloat9Abs_shape (-q)
      refine ⟨"-" ++ pre, fr, ?_, hlen, hfr, ?_⟩
      · rw [formatFloat9, if_pos hq, heq, ← String.append_assoc, ← String.append_assoc]
      · intro c hc
        rw [string_data_append] at hc
        rcases List.mem_append.mp hc with hc | hc
        · simp only [show ("-" : String).data = ['-'] from rfl, List.mem_singleton] at hc
          subst hc
          decide
        · exact isDigit_ne_dot (hpre c hc)
    · obtain ⟨pre, fr, heq, hlen, hfr, hpre⟩ := formatFloat9Abs_shape q
      refine ⟨pre, fr, ?_, hlen, hfr, fun c hc => isDigit_ne_dot (hpre c hc)⟩
      rw [formatFloat9, if_neg hq, heq]
  · intro root path fb n h
    simp [GetString, get_found h, coerceString]
  · have hv : GetString c6doc "a" none = .ok (formatFloat9 (123456 / 1000)) := rfl
    rw [hv]
    have : formatFloat9 ((123456 : Rat) / 1000) = "123.456000000" := by
      simp [formatFloat9, formatFloat9Abs]
      norm_num
      decide
    rw [this]

/-- Witness for C6: `GetString` applied to the float and int entries of
`c6doc`, plus the nine-digit shape at 123.456. -/
theorem C6_string_formatting_witness :
    GetString c6doc "a" none = .ok (formatFloat9 (123456 / 1000)) ∧
    GetString c6doc "b" none = .ok (intRepr 123) ∧
    (∃ pre fr : String,
      formatFloat9 ((123456 : Rat) / 1000) = pre ++ "." ++ fr ∧ fr.length = 9 ∧
      (∀ c ∈ fr.data, c.isDigit = true) ∧ (∀ c ∈ pre.data, c ≠ '.')) :=
  ⟨C6_string_formatting.1 c6doc "a" none (123456 / 1000) rfl,
   C6_string_formatting.2.2.1 c6doc "b" none 123 rfl,
   C6_string_formatting.2.1 ((123456 : Rat) / 1000)⟩

/-!
## C1 — list-element conversion failures
-/

/-- The per-element string-to-int conversion of `GetArray` (511-516): `Atoi`,
else `ParseFloat` with its error discarded, so an unparseable string maps
to 0. -/
def goStrToIntLossy (s : String) : Int :=
  match goAtoi s with
  | some n => n
  | none => goTrunc ((goParseFloat s).getD 0)

/-- The document `{"a": ["foo"]}` with a statically string-typed sequence. -/
def c1doc : GoMap := [("a", .vSlice .kString [.vStr "foo"])]

/-- Counterexample to C1 as stated: "foo" parses neither as int nor as
float, yet `GetInts` on `["foo"]` succeeds with `[0]` — the element is
replaced by the zero default instead of aborting with `InvalidTypeError`,
because GetArray discards the `ParseFloat` error (mappath.go:513). -/
theorem C1_counterexample :
    goAtoi "foo" = none ∧ goParseFloat "foo" = none ∧
    GetInts c1doc "a" none = .ok [0] :=
  ⟨rfl, rfl, rfl⟩

theorem convIntElem_string_list :
    ∀ (ss : List String) (i : Nat),
      convList (convIntElem .kString) i (ss.map Val.vStr) = .ok (ss.map goStrToIntLossy) := by
  intro ss
  induction ss with
  | nil => intro i; rfl
  | cons s rest ih =>
    intro i
    have hstep : convIntElem .kString i (.vStr s) = .ok (goStrToIntLossy s) := by
      cases hA : goAtoi s <;> simp [convIntElem, goStrToIntLossy, Val.asStr, hA]
    simp only [List.map_cons, convList, hstep, ih]

/-- The per-element string-to-float conversion of `GetArray` (536-539):
`ParseFloat` with its error discarded, so an unparseable string maps
to 0.0. -/
def goStrToFloatLossy (s : String) : Rat :=
  (goParseFloat s).getD 0

theorem convFloatElem_string_list :
    ∀ (ss : List String) (i : Nat),
      convList (convFloatElem .kString) i (ss.map Val.vStr) = .ok (ss.map goStrToFloatLossy) := by
  intro ss
  induction ss with
  | nil => intro i; rfl
  | cons s rest ih =>
    intro i
    simp only [List.map_cons, convList]
    rw [show convFloatElem .kString i (.vStr s) = .ok (goStrToFloatLossy s) from rfl, ih]

theorem convStr_interface_prefix :
    ∀ (pre : List String) (i : Nat) (v : Val) (rest : List Val),
      (∀ s, v ≠ .vStr s) →
      convList (convStrElem .kInterface) i (pre.map Val.vStr ++ v :: rest)
        = .error (.invalidType v
            ("[" ++ natRepr (i + pre.length) ++ "]array<%!s(MISSING)> - interface")) := by
  intro pre
  induction pre with
  | nil =>
    intro i v rest hv
    have hstep : convStrElem .kInterface i v
        = .error (.invalidType v ("[" ++ natRepr i ++ "]array<%!s(MISSING)> - interface")) := by
      cases v with
      | vStr s => exact absurd rfl (hv s)
      | vBool b => rfl
      | vInt n => rfl
      | vFloat q => rfl
      | vMap m => rfl
      | vSlice k es => rfl
    simp [convList, hstep]
  | cons s pre' ih =>
    intro i v rest hv
    simp only [List.map_cons, List.cons_append, convList]
    rw [show convStrElem .kInterface i (.vStr s) = .ok s from rfl]
    simp only [List.append_eq]
    rw [ih (i + 1) v rest hv]
    have harg : i + 1 + pre'.length = i + (s :: pre').length := by
      simp [List.length_cons]
      omega
    rw [harg]

/-- C1 amended: a sequence element with no conversion rule toward the
target aborts the whole list-accessor call with an `InvalidTypeError`
annotated with the element's index — for the int and float targets that is
any element whose static kind is outside int/bool/float64/string (e.g. a
map element, or any element of an interface-typed sequence); for the string
target a map- or slice-kinded element, or an interface-boxed element that
is not a string (failing at that element's position); for the map target
any non-map-kinded element. A string element under the int or float target,
however, is never an error: the `ParseFloat` failure is discarded, so a
string that parses neither as int nor as float becomes 0 resp. 0.0 (no
element is dropped, but unparseable ones are replaced by the zero
default). -/
theorem C1_amended_element_conversion :
    (∀ (root : GoMap) (path : String) (elemK : GoKind) (v : Val) (elems : List Val),
      getBranch (goSplitPath path) root = some (.vSlice elemK (v :: elems)) →
      elemK ≠ .kInt → elemK ≠ .kBool → elemK ≠ .kFloat64 → elemK ≠ .kString →
      GetInts root path none = .error (.invalidType v "[0]array<int>")) ∧
    (∀ (root : GoMap) (path : String) (ss : List String),
      getBranch (goSplitPath path) root = some (.vSlice .kString (ss.map Val.vStr)) →
      GetInts root path none = .ok (ss.map goStrToIntLossy)) ∧
    (∀ (root : GoMap) (path : String) (elemK : GoKind) (v : Val) (elems : List Val),
      getBranch (goSplitPath path) root = some (.vSlice elemK (v :: elems)) →
      elemK ≠ .kInt → elemK ≠ .kBool → elemK ≠ .kFloat64 → elemK ≠ .kString →
      GetFloats root path none = .error (.invalidType v "[0]array<float64>")) ∧
    (∀ (root : GoMap) (path : String) (ss : List String),
      getBranch (goSplitPath path) root = some (.vSlice .kString (ss.map Val.vStr)) →
      GetFloats root path none = .ok (ss.map goStrToFloatLossy)) ∧
    (∀ (root : GoMap) (path : String) (elemK : GoKind) (v : Val) (elems : List Val),
      getBranch (goSplitPath path) root = some (.vSlice elemK (v :: elems)) →
      (elemK = .kMap ∨ elemK = .kSlice) →
      GetStrings root path none = .error (.invalidType v "[0]array<string> - %!v(MISSING)")) ∧
    (∀ (root : GoMap) (path : String) (pre : List String) (v : Val) (rest : List Val),
      getBranch (goSplitPath path) root = some (.vSlice .kInterface (pre.map Val.vStr ++ v :: rest)) →
      (∀ s, v ≠ .vStr s) →
      GetStrings root path none = .error (.invalidType v
        ("[" ++ natRepr pre.length ++ "]array<%!s(MISSING)> - interface"))) ∧
    (∀ (root : GoMap) (path : String) (elemK : GoKind) (v : Val) (elems : List Val),
      getBranch (goSplitPath path) root = some (.vSlice elemK (v :: elems)) →
      elemK ≠ .kMap →
      GetMaps root path none = .error (.invalidType v "[0]array<map>")) := by
  refine ⟨?_, ?_, ?_, ?_, ?_, ?_, ?_⟩
  · intro root path elemK v elems h h1 h2 h3 h4
    have hstep : convIntElem elemK 0 v = .error (.invalidType v "[0]array<int>") := by
      cases elemK <;>
        first
          | exact absurd rfl h1
          | exact absurd rfl h2
          | exact absurd rfl h3
          | exact absurd rfl h4
          | rfl
    have hc : convList (convIntElem elemK) 0 (v :: elems)
        = .error (.invalidType v "[0]array<int>") := by
      simp only [convList, hstep]
    simp [GetInts, GetArray, get_found h, hc, Except.map]
  · intro root path ss h
    cases ss with
    | nil => simp [GetInts, GetArray, get_found h]
    | cons s rest =>
      have hc := convIntElem_string_list (s :: rest) 0
      simp only [List.map_cons] at hc
      simp [GetInts, GetArray, get_found h, hc, Except.map, ArrOut.asInts]
  · intro root path elemK v elems h h1 h2 h3 h4
    have hstep : convFloatElem elemK 0 v = .error (.invalidType v "[0]array<float64>") := by
      cases elemK <;>
        first
          | exact absurd rfl h1
          | exact absurd rfl h2
          | exact absurd rfl h3
          | exact absurd rfl h4
          | rfl
    have hc : convList (convFloatElem elemK) 0 (v :: elems)
        = .error (.invalidType v "[0]array<float64>") := by
      simp only [convList, hstep]
    simp [GetFloats, GetArray, get_found h, hc, Except.map]
  · intro root path ss h
    cases ss with
    | nil => simp [GetFloats, GetArray, get_found h]
    | cons s rest =>
      have hc := convFloatElem_string_list (s :: rest) 0
      simp only [List.map_cons] at hc
      simp [GetFloats, GetArray, get_found h, hc, Except.map, ArrOut.asFloats]
  · intro root path elemK v elems h hk
    have hstep : convStrElem elemK 0 v
        = .error (.invalidType v "[0]array<string> - %!v(MISSING)") := by
      rcases hk with rfl | rfl <;> rfl
    have hc : convList (convStrElem elemK) 0 (v :: elems)
        = .error (.invalidType v "[0]array<string> - %!v(MISSING)") := by
      simp only [convList, hstep]
    simp [GetStrings, GetArray, get_found h, hc, Except.map]
  · intro root path pre v rest h hv
    have hlen : (pre.map Val.vStr ++ v :: rest).length ≠ 0 := by simp
    have hc := convStr_interface_prefix pre 0 v rest hv
    rw [Nat.zero_add] at hc
    simp [GetStrings, GetArray, get_found h, hlen, hc, Except.map]
  · intro root path elemK v elems h hk
    have hstep : convMapElem elemK 0 v = .error (.invalidType v "[0]array<map>") := by
      cases elemK <;> first | exact absurd rfl hk | rfl
    have hc : convList (convMapElem elemK) 0 (v :: elems)
        = .error (.invalidType v "[0]array<map>") := by
      simp only [convList, hstep]
    simp [GetMaps, GetArray, get_found h, hc, Except.map]

/-- Witness for C1's amended theorem: a map element under the int, float and
string targets fails with the index-annotated `InvalidTypeError`, as does an
int element at position 1 of an interface-typed sequence under the string
target and under the map target; the unparseable string element of `c1doc`
converts to 0 (int target) resp. 0.0 (float target) without error. -/
theorem C1_amended_element_conversion_witness :
    GetInts [("a", .vSlice .kMap [.vMap []])] "a" none
      = .error (.invalidType (.vMap []) "[0]array<int>") ∧
    GetInts c1doc "a" none = .ok (["foo"].map goStrToIntLossy) ∧
    GetFloats [("a", .vSlice .kMap [.vMap []])] "a" none
      = .error (.invalidType (.vMap []) "[0]array<float64>") ∧
    GetFloats c1doc "a" none = .ok (["foo"].map goStrToFloatLossy) ∧
    GetStrings [("a", .vSlice .kMap [.vMap []])] "a" none
      = .error (.invalidType (.vMap []) "[0]array<string> - %!v(MISSING)") ∧
    GetStrings [("a", .vSlice .kInterface [.vStr "x", .vInt 5])] "a" none
      = .error (.invalidType (.vInt 5) ("[" ++ natRepr 1 ++ "]array<%!s(MISSING)> - interface")) ∧
    GetMaps [("a", .vSlice .kInt [.vInt 1])] "a" none
      = .error (.invalidType (.vInt 1) "[0]array<map>") :=
  ⟨C1_amended_element_conversion.1 [("a", .vSlice .kMap [.vMap []])] "a" .kMap (.vMap []) []
      rfl (by decide) (by decide) (by decide) (by decide),
   C1_amended_element_conversion.2.1 c1doc "a" ["foo"] rfl,
   C1_amended_element_conversion.2.2.1 [("a", .vSlice .kMap [.vMap []])] "a" .kMap (.vMap []) []
      rfl (by decide) (by decide) (by decide) (by decide),
   C1_amended_element_conversion.2.2.2.1 c1doc "a" ["foo"] rfl,
   C1_amended_element_conversion.2.2.2.2.1 [("a", .vSlice .kMap [.vMap []])] "a" .kMap (.vMap [])
      [] rfl (Or.inl rfl),
   C1_amended_element_conversion.2.2.2.2.2.1 [("a", .vSlice .kInterface [.vStr "x", .vInt 5])]
      "a" ["x"] (.vInt 5) [] rfl (fun s h => Val.noConfusion h),
   C1_amended_element_conversion.2.2.2.2.2.2 [("a", .vSlice .kInt [.vInt 1])] "a" .kInt
      (.vInt 1) [] rfl (by decide)⟩

/-!
## C9 — empty segments from leading/trailing slashes
-/

/-- The document `{"": {"x": 7}}`: it has an entry under the empty key. -/
def c9doc : GoMap := [("", .vMap [("x", .vInt 7)])]

/-- Counterexample to C9 as stated: the empty segment produced by a leading
slash is looked up as an ordinary map key, not rejected, so on a document
with an empty-string key the path "/x" resolves. -/
theorem C9_counterexample :
    Get c9doc "/x" none = .ok (.vInt 7) ∧ Has c9doc "/x" = true :=
  ⟨rfl, rfl⟩

theorem splitSlash_ne_nil : ∀ l : List Char, splitSlash l ≠ [] := by
  intro l
  cases l with
  | nil => simp [splitSlash]
  | cons c cs =>
    simp only [splitSlash]
    cases splitSlash cs with
    | nil => simp
    | cons s rest => dsimp only; split <;> simp

theorem splitSlash_leading (l : List Char) : splitSlash ('/' :: l) = [] :: splitSlash l := by
  simp only [splitSlash]
  cases h : splitSlash l with
  | nil => exact absurd h (splitSlash_ne_nil l)
  | cons s rest => simp

theorem splitSlash_trailing : ∀ l : List Char, splitSlash (l ++ ['/']) = splitSlash l ++ [[]] := by
  intro l
  induction l with
  | nil => rfl
  | cons c cs ih =>
    show splitSlash (c :: (cs ++ ['/'])) = splitSlash (c :: cs) ++ [[]]
    simp only [splitSlash, ih]
    cases h : splitSlash cs with
    | nil => exact absurd h (splitSlash_ne_nil cs)
    | cons s rest => simp only [List.cons_append]; split <;> simp

theorem goSplitPath_ne_nil (p : String) : goSplitPath p ≠ [] := by
  cases h : splitSlash p.data with
  | nil => exact absurd h (splitSlash_ne_nil p.data)
  | cons s rest => simp [goSplitPath, h]

theorem goSplitPath_leading (p : String) : goSplitPath ("/" ++ p) = "" :: goSplitPath p := by
  simp only [goSplitPath, string_data_append]
  rw [show ("/" : String).data ++ p.data = '/' :: p.data from rfl, splitSlash_leading]
  rfl

theorem goSplitPath_trailing (p : String) : goSplitPath (p ++ "/") = goSplitPath p ++ [""] := by
  simp only [goSplitPath, string_data_append]
  rw [show p.data ++ ("/" : String).data = p.data ++ ['/'] from rfl, splitSlash_trailing]
  simp

theorem getNext_append : ∀ (xs ys : List String) (v : Val),
    getNext v (xs ++ ys) = (getNext v xs).bind (fun w => getNext w ys) := by
  intro xs
  induction xs with
  | nil => intro ys v; simp [getNext]
  | cons seg rest ih =>
    intro ys v
    cases v with
    | vMap m =>
      cases hL : goLookup m seg with
      | none => simp [getNext, hL]
      | some w => simp [getNext, hL, ih]
    | vSlice elemK elems =>
      cases hA : goAtoi seg with
      | none => simp [getNext, hA]
      | some idx =>
        by_cases hneg : idx < 0
        · simp [getNext, hA, hneg]
        · cases hE : elems[idx.toNat]? with
          | none => simp [getNext, hA, hneg, hE]
          | some w => simp [getNext, hA, hneg, hE, ih]
    | vBool b => simp [getNext]
    | vInt n => simp [getNext]
    | vFloat q => simp [getNext]
    | vStr s => simp [getNext]

theorem getBranch_append (name : String) (rest extra : List String) (root : GoMap) :
    getBranch ((name :: rest) ++ extra) root
      = (getBranch (name :: rest) root).bind (fun v => getNext v extra) := by
  simp only [List.cons_append, getBranch]
  cases goLookup root name <;> simp [getNext_append]

/-- C9 amended: the empty segment produced by a leading or trailing slash is
looked up like any other key — no slash normalization happens. Resolution
therefore fails exactly when the empty key is absent: with no empty key at
the root, any `"/" ++ p` is `NotFound`; and when the value at `p` is not a
map with an empty key (including every non-map value), `p ++ "/"` is
`NotFound`. (A document carrying an empty-string key, as in the
counterexample, does resolve such paths.) -/
theorem C9_amended_empty_segment_is_ordinary_key :
    (∀ (root : GoMap) (p : String),
      goLookup root "" = none →
      Get root ("/" ++ p) none = .error (.notFound ("/" ++ p)) ∧ Has root ("/" ++ p) = false) ∧
    (∀ (root : GoMap) (p : String),
      (match getBranch (goSplitPath p) root with
        | some (.vMap m) => goLookup m "" = none
        | _ => True) →
      Get root (p ++ "/") none = .error (.notFound (p ++ "/")) ∧ Has root (p ++ "/") = false) := by
  constructor
  · intro root p h
    have hres : getBranch (goSplitPath ("/" ++ p)) root = none := by
      rw [goSplitPath_leading]
      simp [getBranch, h]
    exact ⟨get_absent_none hres, by simp [Has, hres]⟩
  · intro root p h
    obtain ⟨name, rest, hsplit⟩ : ∃ name rest, goSplitPath p = name :: rest := by
      cases hsp : goSplitPath p with
      | nil => exact absurd hsp (goSplitPath_ne_nil p)
      | cons a b => exact ⟨a, b, rfl⟩
    have hres : getBranch (goSplitPath (p ++ "/")) root = none := by
      rw [goSplitPath_trailing, hsplit, getBranch_append]
      rw [hsplit] at h
      cases hb : getBranch (name :: rest) root with
      | none => simp
      | some v =>
        rw [hb] at h
        cases v with
        | vMap m => simp [getNext, h]
        | vSlice elemK elems => simp [getNext, goAtoi, parseDigits]
        | vBool b => simp [getNext]
        | vInt n => simp [getNext]
        | vFloat q => simp [getNext]
        | vStr s => simp [getNext]
    exact ⟨get_absent_none hres, by simp [Has, hres]⟩

/-- Witness for C9's amended theorem: on `{"a": 1}` (no empty keys) both
"/a" and "a/" are `NotFound`. -/
theorem C9_amended_empty_segment_is_ordinary_key_witness :
    Get [("a", .vInt 1)] "/a" none = .error (.notFound "/a") ∧
    Get [("a", .vInt 1)] "a/" none = .error (.notFound "a/") :=
  ⟨(C9_amended_empty_segment_is_ordinary_key.1 [("a", .vInt 1)] "a" rfl).1,
   (C9_amended_empty_segment_is_ordinary_key.2 [("a", .vInt 1)] "a" trivial).1⟩

end Mappath
